import Mathlib

/-!
Shallow embedding of the `pallet-kitties` Substrate pallet
(`src/pallets/kitties/src/lib.rs`) together with models of the external
collaborators it delegates to (the `orml_nft` asset registry, the
`Currency` balances collaborator, the FRAME storage combinators
`StorageMap::try_mutate` and `with_transaction_result`).

Accounts, token ids and balances are modelled as `Nat`; the 16-byte DNA is
modelled as a list of byte values (`List Nat`), which also captures the
`None` branch of `dna.iter().max()` in the source.
-/

namespace KittiesPallet

abbrev AccountId := Nat
abbrev TokenId := Nat
abbrev Balance := Nat

/-- `pub struct Kitty(pub [u8; 16])`: the DNA bytes. -/
structure Kitty where
  dna : List Nat
deriving DecidableEq, Repr

/-- `pub enum Gender { Male, Female }`. -/
inductive Gender
  | Male
  | Female
deriving DecidableEq, Repr

/-- Errors: the pallet's own `Error<T>` variants that can actually be
returned, plus the pass-through errors of the two external collaborators
(`orml_nft` registry and the balances pallet). -/
inductive DispatchError
  | KittyNotFound
  | KittyPartnerMissing
  | KittyGendersNotCompatible
  | KittyNotForSale
  | CannotBuyOwnKitty
  | TokenNotFound
  | NoPermission
  | NoAvailableTokenId
  | InsufficientBalance
  | KeepAliveError
  | ExistentialDepositError
deriving DecidableEq, Repr

/-- `Kitty::get_gender_from_dna`: maximum byte even → Male, odd → Female,
`None` (no bytes) → Male. -/
def get_gender_from_dna (dna : List Nat) : Gender :=
  match dna.max? with
  | some total => if total % 2 = 0 then Gender.Male else Gender.Female
  | none => Gender.Male

/-- `Kitty::gender`. -/
def Kitty.gender (k : Kitty) : Gender :=
  get_gender_from_dna k.dna

/-- `Kitty::ensure_different_kitty`: fails `KittyPartnerMissing` when the two
kitties are byte-equal. -/
def ensure_different_kitty (first second : Kitty) : Except DispatchError Unit :=
  if first ≠ second then Except.ok () else Except.error DispatchError.KittyPartnerMissing

/-- `Kitty::ensure_different_gender`: fails `KittyGendersNotCompatible` when
the two kitties compute to the same gender. -/
def ensure_different_gender (first second : Kitty) : Except DispatchError Unit :=
  if first.gender ≠ second.gender then Except.ok ()
  else Except.error DispatchError.KittyGendersNotCompatible

/-- `Kitty::breed`: checks distinct parents, then opposite genders, then
derives the child DNA by hashing `(first.0, second.0, random_seed,
extrinsic_index)` with blake2_128.  The hash output is external
pseudo-randomness, supplied here as the `childDna` argument. -/
def Kitty.breed (first second : Kitty) (childDna : List Nat) :
    Except DispatchError Kitty :=
  match ensure_different_kitty first second with
  | Except.error e => Except.error e
  | Except.ok _ =>
    match ensure_different_gender first second with
    | Except.error e => Except.error e
    | Except.ok _ => Except.ok (Kitty.mk childDna)

/-- One record of the external `orml_nft` token table:
`TokenInfo { owner, data }` (metadata dropped; it is always `Default`). -/
structure TokenInfo where
  owner : AccountId
  data : Kitty
deriving DecidableEq, Repr

/-- `pub struct Listing<T: Config>(T::AccountId, BalanceOf<T>)`. -/
structure Listing where
  seller : AccountId
  price : Balance
deriving DecidableEq, Repr

/-- The pallet's `Event<T>` enum. -/
inductive Event
  | KittyCreated (kitty : Kitty) (id : TokenId) (owner : AccountId)
  | KittyBred (kitty : Kitty) (id : TokenId) (owner : AccountId)
  | KittyTransfer (id : TokenId) (sender receiver : AccountId)
  | KittySold (id : TokenId) (price : Balance) (seller buyer : AccountId)
  | KittyPriceUpdated (id : TokenId) (price : Option Balance) (owner : AccountId)
deriving DecidableEq, Repr

/-- The ledger state the pallet operates on: the `orml_nft` token table for
the pallet's single class (`Tokens`, `NextTokenId`), the `KittyExchange`
listing storage map (the `StorageMap` layer and the stored `Option<Listing>`
are collapsed into one `Option`, which is observationally exact for every
access the code performs), the currency collaborator's free balances, and
the append-only event sink. -/
structure State where
  tokens : TokenId → Option TokenInfo
  nextTokenId : TokenId
  kittyExchange : TokenId → Option Listing
  balances : AccountId → Balance
  events : List Event

/-- `Tokens::insert` at one key. -/
def setToken (k : TokenId) (v : Option TokenInfo) (s : State) : State :=
  { s with tokens := fun i => if i = k then v else s.tokens i }

/-- Write (or clear) the `KittyExchange` entry at one key. -/
def setExchange (k : TokenId) (v : Option Listing) (s : State) : State :=
  { s with kittyExchange := fun i => if i = k then v else s.kittyExchange i }

/-- `Self::deposit_event`. -/
def depositEvent (e : Event) (s : State) : State :=
  { s with events := s.events ++ [e] }

/-- The width of the runtime's `TokenId` type (`u32`, as instantiated in
this repository): `checked_add` in the registry's mint fails at this bound. -/
def tokenIdLimit : Nat := 2 ^ 32

/-- Model of the external registry's `orml_nft::Pallet::mint`: assigns
`NextTokenId` as the fresh id, bumps the counter with `checked_add`
(failing `NoAvailableTokenId` before any write), and inserts the token
record for `owner`.  On failure the registry leaves storage unchanged. -/
def nftMint (owner : AccountId) (data : Kitty) (s : State) :
    Except DispatchError TokenId × State :=
  if s.nextTokenId + 1 < tokenIdLimit then
    (Except.ok s.nextTokenId,
      { setToken s.nextTokenId (some ⟨owner, data⟩) s with
          nextTokenId := s.nextTokenId + 1 })
  else (Except.error DispatchError.NoAvailableTokenId, s)

/-- Model of the external registry's `orml_nft::Pallet::transfer`: fails
`TokenNotFound` if the token does not exist, `NoPermission` if `src` is not
the owner, is a no-op when `src == dst`, and otherwise rewrites the owner.
Its internal `try_mutate` leaves storage unchanged on every failure. -/
def nftTransfer (src dst : AccountId) (tokenId : TokenId) (s : State) :
    Except DispatchError Unit × State :=
  match s.tokens tokenId with
  | none => (Except.error DispatchError.TokenNotFound, s)
  | some info =>
    if info.owner = src then
      if src = dst then (Except.ok (), s)
      else (Except.ok (), setToken tokenId (some ⟨dst, info.data⟩) s)
    else (Except.error DispatchError.NoPermission, s)

/-- Model of the external currency collaborator's
`Currency::transfer(.., ExistenceRequirement::KeepAlive)`: a transfer of
zero or to oneself returns `Ok` without touching balances; otherwise the
source must afford the value, keep at least the existential deposit
afterwards (`KeepAlive`), and the destination must end up at or above the
existential deposit.  Failures leave balances unchanged. -/
def currencyTransfer (ed : Nat) (src dst : AccountId) (value : Balance)
    (s : State) : Except DispatchError Unit × State :=
  if value = 0 ∨ src = dst then (Except.ok (), s)
  else if value ≤ s.balances src then
    if s.balances src - value < ed then
      (Except.error DispatchError.KeepAliveError, s)
    else if s.balances dst + value < ed then
      (Except.error DispatchError.ExistentialDepositError, s)
    else
      (Except.ok (),
        { s with balances := fun a =>
            if a = src then s.balances src - value
            else if a = dst then s.balances dst + value
            else s.balances a })
  else (Except.error DispatchError.InsufficientBalance, s)

/-- `Pallet::kitties`: ownership-filtered lookup — the token must exist in
the registry AND be owned by `owner`, otherwise `None`. -/
def kitties (owner : AccountId) (kitty_id : TokenId) (s : State) :
    Option Kitty :=
  (s.tokens kitty_id).bind fun x =>
    if x.owner = owner then some x.data else none

/-- `orml_nft::TokensByOwner::contains_key(&who, (class_id, kitty_id))`:
the registry maintains this index in lockstep with the token table, so it
holds exactly when the token exists and `who` is its owner. -/
def tokensByOwnerContains (who : AccountId) (kitty_id : TokenId)
    (s : State) : Bool :=
  match s.tokens kitty_id with
  | some info => info.owner = who
  | none => false

/-- FRAME `StorageMap::try_mutate` on `KittyExchange` at `k`: the closure
receives the current value by mutable reference (modelled as value in,
value out) and may also perform other storage operations (modelled by
threading the state); the mutated value is written back only when the
closure returns `Ok` — on `Err` the local mutation is discarded while the
closure's other (already committed) state changes persist. -/
def exchangeTryMutate (k : TokenId)
    (f : Option Listing → State →
      Option Listing × Except DispatchError Unit × State)
    (s : State) : Except DispatchError Unit × State :=
  match f (s.kittyExchange k) s with
  | (v, Except.ok _, s1) => (Except.ok (), setExchange k v s1)
  | (_, Except.error e, s1) => (Except.error e, s1)

/-- `orml_utilities::with_transaction_result`: runs the closure inside a
storage transaction; on `Ok` every write commits, on `Err` every write made
inside the closure (events included) is rolled back. -/
def with_transaction_result
    (f : State → Except DispatchError Unit × State) (s : State) :
    Except DispatchError Unit × State :=
  match f s with
  | (Except.ok a, s1) => (Except.ok a, s1)
  | (Except.error e, _) => (Except.error e, s)

/-- `create_kitty`: `Kitty::new` hashes `(owner, randomness, extrinsic
index)` with blake2_128 into 16 bytes (it never fails; the hash output is
supplied as `dna`), the registry mints the kitty to the caller, and one
`KittyCreated` event is deposited. -/
def create_kitty (who : AccountId) (dna : List Nat) (s : State) :
    Except DispatchError Unit × State :=
  let kitty := Kitty.mk dna
  match nftMint who kitty s with
  | (Except.error e, s1) => (Except.error e, s1)
  | (Except.ok current_id, s1) =>
    (Except.ok (), depositEvent (Event.KittyCreated kitty current_id who) s1)

/-- `breed_kitty`: both parents are loaded through the ownership-filtered
`Self::kitties` (failing `KittyNotFound`), `Kitty::breed` validates them and
derives the child DNA (supplied as `childDna`, the blake2_128 output), the
child is minted to the caller and one `KittyBred` event is deposited. -/
def breed_kitty (who : AccountId) (first_parent second_parent : TokenId)
    (childDna : List Nat) (s : State) : Except DispatchError Unit × State :=
  match kitties who first_parent s with
  | none => (Except.error DispatchError.KittyNotFound, s)
  | some first_parent_struct =>
    match kitties who second_parent s with
    | none => (Except.error DispatchError.KittyNotFound, s)
    | some second_parent_struct =>
      match Kitty.breed first_parent_struct second_parent_struct childDna with
      | Except.error e => (Except.error e, s)
      | Except.ok kitty =>
        match nftMint who kitty s with
        | (Except.error e, s1) => (Except.error e, s1)
        | (Except.ok current_id, s1) =>
          (Except.ok (),
            depositEvent (Event.KittyBred kitty current_id who) s1)

/-- `transfer_kitty`: delegates to the registry's transfer (which enforces
ownership), then — only when `who != receiver` — removes the kitty's
listing and deposits one `KittyTransfer` event. -/
def transfer_kitty (who receiver : AccountId) (kitty_id : TokenId)
    (s : State) : Except DispatchError Unit × State :=
  match nftTransfer who receiver kitty_id s with
  | (Except.error e, s1) => (Except.error e, s1)
  | (Except.ok _, s1) =>
    if who ≠ receiver then
      (Except.ok (),
        depositEvent (Event.KittyTransfer kitty_id who receiver)
          (setExchange kitty_id none s1))
    else (Except.ok (), s1)

/-- `set_price`: requires the caller to be the recorded owner in the
registry's `TokensByOwner` index (else `KittyNotFound`), then writes the
listing `(who, new_price)` or removes it, and deposits one
`KittyPriceUpdated` event. -/
def set_price (who : AccountId) (kitty_id : TokenId)
    (new_price : Option Balance) (s : State) :
    Except DispatchError Unit × State :=
  if tokensByOwnerContains who kitty_id s then
    let s1 :=
      match new_price with
      | some p => setExchange kitty_id (some ⟨who, p⟩) s
      | none => setExchange kitty_id none s
    (Except.ok (), depositEvent (Event.KittyPriceUpdated kitty_id new_price who) s1)
  else (Except.error DispatchError.KittyNotFound, s)

/-- The body of the `with_transaction_result` closure inside `buy_kitty`:
asset transfer seller → caller through the registry, then value transfer
caller → seller with `KeepAlive`, then the `KittySold` event deposit. -/
def buy_exec (ed : Nat) (who : AccountId) (kitty_id : TokenId)
    (listing : Listing) (t0 : State) : Except DispatchError Unit × State :=
  match nftTransfer listing.seller who kitty_id t0 with
  | (Except.error e, t1) => (Except.error e, t1)
  | (Except.ok _, t1) =>
    match currencyTransfer ed who listing.seller listing.price t1 with
    | (Except.error e, t2) => (Except.error e, t2)
    | (Except.ok _, t2) =>
      (Except.ok (),
        depositEvent
          (Event.KittySold kitty_id listing.price listing.seller who) t2)

/-- `buy_kitty`: inside `KittyExchange::try_mutate`, `take()` the listing
(`KittyNotForSale` when absent), reject a self-purchase
(`CannotBuyOwnKitty`), then run `buy_exec` inside
`with_transaction_result`. -/
def buy_kitty (ed : Nat) (who : AccountId) (kitty_id : TokenId)
    (s : State) : Except DispatchError Unit × State :=
  exchangeTryMutate kitty_id
    (fun listing_option s0 =>
      match listing_option with
      | none => (none, Except.error DispatchError.KittyNotForSale, s0)
      | some listing =>
        if who = listing.seller
        then (none, Except.error DispatchError.CannotBuyOwnKitty, s0)
        else
          let r := with_transaction_result (buy_exec ed who kitty_id listing) s0
          (none, r.1, r.2))
    s

/-! ### Concrete states used to exercise the theorems -/

/-- The post-genesis state: the class is created, no tokens, no listings. -/
def genesisState (bal : AccountId → Balance) : State :=
  { tokens := fun _ => none, nextTokenId := 0,
    kittyExchange := fun _ => none, balances := bal, events := [] }

/-- Account 100 owns token 0 (an all-zero DNA). -/
def c3State : State :=
  { tokens := fun i => if i = 0 then some ⟨100, ⟨List.replicate 16 0⟩⟩ else none,
    nextTokenId := 1, kittyExchange := fun _ => none,
    balances := fun _ => 0, events := [] }

/-- Account 100 owns tokens 0 and 1 carrying byte-equal all-zero DNAs. -/
def c4CexState : State :=
  { tokens := fun i =>
      if i = 0 ∨ i = 1 then some ⟨100, ⟨List.replicate 16 0⟩⟩ else none,
    nextTokenId := 2, kittyExchange := fun _ => none,
    balances := fun _ => 0, events := [] }

/-- Account 100 owns tokens 0 and 1 with distinct DNAs of even maximum. -/
def c4State : State :=
  { tokens := fun i =>
      if i = 0 then some ⟨100, ⟨2 :: List.replicate 15 0⟩⟩
      else if i = 1 then some ⟨100, ⟨4 :: List.replicate 15 0⟩⟩
      else none,
    nextTokenId := 2, kittyExchange := fun _ => none,
    balances := fun _ => 0, events := [] }

/-- Account 100 owns token 0; account 101 owns nothing. -/
def c5State : State :=
  { tokens := fun i => if i = 0 then some ⟨100, ⟨List.replicate 16 0⟩⟩ else none,
    nextTokenId := 1, kittyExchange := fun _ => none,
    balances := fun _ => 0, events := [] }

/-- Account 7 owns token 0 (no listing). -/
def c7State : State :=
  { tokens := fun i => if i = 0 then some ⟨7, ⟨List.replicate 16 0⟩⟩ else none,
    nextTokenId := 1, kittyExchange := fun _ => none,
    balances := fun _ => 100, events := [] }

/-- Account 7 owns token 0, which carries an existing listing by 7 at 55. -/
def c8State : State :=
  { tokens := fun i => if i = 0 then some ⟨7, ⟨List.replicate 16 0⟩⟩ else none,
    nextTokenId := 1,
    kittyExchange := fun i => if i = 0 then some ⟨7, 55⟩ else none,
    balances := fun _ => 100, events := [] }

/-- Account 7 owns token 0 and lists it at 40; everyone holds 100. -/
def c2State : State :=
  { tokens := fun i => if i = 0 then some ⟨7, ⟨List.replicate 16 0⟩⟩ else none,
    nextTokenId := 1,
    kittyExchange := fun i => if i = 0 then some ⟨7, 40⟩ else none,
    balances := fun _ => 100, events := [] }

/-- Account 100 owns token 0 (for the self-transfer event counterexample). -/
def c9State : State :=
  { tokens := fun i => if i = 0 then some ⟨100, ⟨List.replicate 16 0⟩⟩ else none,
    nextTokenId := 1, kittyExchange := fun _ => none,
    balances := fun _ => 100, events := [] }

/-- A reachable demonstration state: account 7 creates a kitty at genesis
and lists it at price 40. -/
def c10State : State :=
  (set_price 7 0 (some 40)
    (create_kitty 7 (List.replicate 16 0) (genesisState fun _ => 0)).2).2

/-! ### Reachability and the listing invariant -/

/-- Token ids at or above the mint counter are unused. -/
def FreshTokens (s : State) : Prop :=
  ∀ i, s.nextTokenId ≤ i → s.tokens i = none

/-- Every active listing's seller is the listed asset's current owner. -/
def ListingSellerOwns (s : State) : Prop :=
  ∀ k l, s.kittyExchange k = some l →
    ∃ info, s.tokens k = some info ∧ info.owner = l.seller

/-- The inductive invariant preserved by every pallet operation. -/
def Inv (s : State) : Prop := FreshTokens s ∧ ListingSellerOwns s

/-- States reachable from genesis through the pallet's five dispatchables
(each step keeps the returned state whether the call succeeded or not). -/
inductive Reachable : State → Prop
  | genesis (bal : AccountId → Balance) : Reachable (genesisState bal)
  | create (who : AccountId) (dna : List Nat) (s : State) :
      Reachable s → Reachable (create_kitty who dna s).2
  | breed (who : AccountId) (a b : TokenId) (childDna : List Nat)
      (s : State) : Reachable s → Reachable (breed_kitty who a b childDna s).2
  | transfer (who receiver : AccountId) (k : TokenId) (s : State) :
      Reachable s → Reachable (transfer_kitty who receiver k s).2
  | price (who : AccountId) (k : TokenId) (p : Option Balance) (s : State) :
      Reachable s → Reachable (set_price who k p s).2
  | buy (ed : Nat) (who : AccountId) (k : TokenId) (s : State) :
      Reachable s → Reachable (buy_kitty ed who k s).2

/-! ### Projection lemmas for the state updaters -/

@[simp]
theorem setToken_tokens (k : TokenId) (v : Option TokenInfo) (s : State)
    (i : TokenId) : (setToken k v s).tokens i = if i = k then v else s.tokens i :=
  rfl

@[simp]
theorem setToken_nextTokenId (k : TokenId) (v : Option TokenInfo) (s : State) :
    (setToken k v s).nextTokenId = s.nextTokenId :=
  rfl

@[simp]
theorem setToken_kittyExchange (k : TokenId) (v : Option TokenInfo)
    (s : State) : (setToken k v s).kittyExchange = s.kittyExchange :=
  rfl

@[simp]
theorem setToken_balances (k : TokenId) (v : Option TokenInfo) (s : State) :
    (setToken k v s).balances = s.balances :=
  rfl

@[simp]
theorem setToken_events (k : TokenId) (v : Option TokenInfo) (s : State) :
    (setToken k v s).events = s.events :=
  rfl

@[simp]
theorem setExchange_kittyExchange (k : TokenId) (v : Option Listing)
    (s : State) (i : TokenId) :
    (setExchange k v s).kittyExchange i = if i = k then v else s.kittyExchange i :=
  rfl

@[simp]
theorem setExchange_tokens (k : TokenId) (v : Option Listing) (s : State) :
    (setExchange k v s).tokens = s.tokens :=
  rfl

@[simp]
theorem setExchange_nextTokenId (k : TokenId) (v : Option Listing) (s : State) :
    (setExchange k v s).nextTokenId = s.nextTokenId :=
  rfl

@[simp]
theorem setExchange_balances (k : TokenId) (v : Option Listing) (s : State) :
    (setExchange k v s).balances = s.balances :=
  rfl

@[simp]
theorem setExchange_events (k : TokenId) (v : Option Listing) (s : State) :
    (setExchange k v s).events = s.events :=
  rfl

@[simp]
theorem depositEvent_events (e : Event) (s : State) :
    (depositEvent e s).events = s.events ++ [e] :=
  rfl

@[simp]
theorem depositEvent_tokens (e : Event) (s : State) :
    (depositEvent e s).tokens = s.tokens :=
  rfl

@[simp]
theorem depositEvent_kittyExchange (e : Event) (s : State) :
    (depositEvent e s).kittyExchange = s.kittyExchange :=
  rfl

@[simp]
theorem depositEvent_nextTokenId (e : Event) (s : State) :
    (depositEvent e s).nextTokenId = s.nextTokenId :=
  rfl

@[simp]
theorem depositEvent_balances (e : Event) (s : State) :
    (depositEvent e s).balances = s.balances :=
  rfl

/-! ### Execution-shape lemmas -/

/-- `buy_kitty` unfolded through the `try_mutate` / `with_transaction_result`
combinators: no listing fails clean; a self-purchase fails with the taken
listing written back untouched; otherwise the transactional body either
commits together with the listing removal or rolls everything back. -/
theorem buy_kitty_eq (ed : Nat) (who : AccountId) (k : TokenId) (s : State) :
    buy_kitty ed who k s =
      match s.kittyExchange k with
      | none => (Except.error DispatchError.KittyNotForSale, s)
      | some listing =>
        if who = listing.seller
        then (Except.error DispatchError.CannotBuyOwnKitty, s)
        else
          match buy_exec ed who k listing s with
          | (Except.ok _, s1) => (Except.ok (), setExchange k none s1)
          | (Except.error e, _) => (Except.error e, s) := by
  unfold buy_kitty exchangeTryMutate with_transaction_result
  cases hx : s.kittyExchange k with
  | none => rfl
  | some listing =>
    by_cases hw : who = listing.seller
    · simp [hw]
    · simp only [hw, if_false]
      cases hb : buy_exec ed who k listing s with
      | mk r s1 => cases r <;> simp

/-- The registry's mint either succeeds at the fresh id or fails with
`NoAvailableTokenId` leaving the state unchanged. -/
theorem nftMint_cases (owner : AccountId) (data : Kitty) (s : State) :
    nftMint owner data s
      = (Except.ok s.nextTokenId,
          { setToken s.nextTokenId (some ⟨owner, data⟩) s with
              nextTokenId := s.nextTokenId + 1 })
    ∨ nftMint owner data s
      = (Except.error DispatchError.NoAvailableTokenId, s) := by
  unfold nftMint
  split <;> simp

/-- Full case analysis of the registry transfer: failures leave the state
unchanged; success means the token existed, was owned by `src`, and is
either untouched (self-transfer) or rewritten to owner `dst`. -/
theorem nftTransfer_spec (src dst : AccountId) (tokenId : TokenId)
    (s : State) :
    (∀ e, (nftTransfer src dst tokenId s).1 = Except.error e →
      (nftTransfer src dst tokenId s).2 = s) ∧
    ((nftTransfer src dst tokenId s).1 = Except.ok () →
      ∃ info, s.tokens tokenId = some info ∧ info.owner = src ∧
        ((src = dst ∧ (nftTransfer src dst tokenId s).2 = s) ∨
         (src ≠ dst ∧ (nftTransfer src dst tokenId s).2
            = setToken tokenId (some ⟨dst, info.data⟩) s))) := by
  unfold nftTransfer
  cases ht : s.tokens tokenId with
  | none =>
    constructor
    · intro e _
      rfl
    · intro h
      simp at h
  | some info =>
    by_cases h1 : info.owner = src
    · by_cases h2 : src = dst
      · constructor
        · intro e h
          simp [h1, h2] at h
        · intro _
          refine ⟨info, rfl, h1, Or.inl ⟨h2, ?_⟩⟩
          simp [h1, h2]
      · constructor
        · intro e h
          simp [h1, h2] at h
        · intro _
          refine ⟨info, rfl, h1, Or.inr ⟨h2, ?_⟩⟩
          simp [h1, h2]
    · constructor
      · intro e _
        simp [h1]
      · intro h
        simp [h1] at h

/-- Full case analysis of the currency transfer: failures leave the state
unchanged, only balances are ever touched, and under sufficient funds with
both accounts kept alive the value moves from `src` to `dst`. -/
theorem currencyTransfer_spec (ed : Nat) (src dst : AccountId)
    (value : Balance) (s : State) :
    (∀ e, (currencyTransfer ed src dst value s).1 = Except.error e →
      (currencyTransfer ed src dst value s).2 = s) ∧
    ((currencyTransfer ed src dst value s).2).tokens = s.tokens ∧
    ((currencyTransfer ed src dst value s).2).kittyExchange
      = s.kittyExchange ∧
    ((currencyTransfer ed src dst value s).2).events = s.events ∧
    ((currencyTransfer ed src dst value s).2).nextTokenId = s.nextTokenId ∧
    (src ≠ dst → value ≤ s.balances src → ed ≤ s.balances src - value →
     ed ≤ s.balances dst + value →
      (currencyTransfer ed src dst value s).1 = Except.ok () ∧
      ((currencyTransfer ed src dst value s).2).balances src
        = s.balances src - value ∧
      ((currencyTransfer ed src dst value s).2).balances dst
        = s.balances dst + value ∧
      (∀ a, a ≠ src → a ≠ dst →
        ((currencyTransfer ed src dst value s).2).balances a
          = s.balances a)) := by
  by_cases h0 : value = 0 ∨ src = dst
  · have hE : currencyTransfer ed src dst value s = (Except.ok (), s) := by
      unfold currencyTransfer
      rw [if_pos h0]
    rw [hE]
    refine ⟨?_, rfl, rfl, rfl, rfl, ?_⟩
    · intro e h
      simp at h
    intro hne _ _ _
    have hv : value = 0 := h0.resolve_right hne
    subst hv
    exact ⟨rfl, rfl, rfl, fun a _ _ => rfl⟩
  · by_cases h1 : value ≤ s.balances src
    · by_cases h2 : s.balances src - value < ed
      · have hE : currencyTransfer ed src dst value s
            = (Except.error DispatchError.KeepAliveError, s) := by
          unfold currencyTransfer
          rw [if_neg h0, if_pos h1, if_pos h2]
        rw [hE]
        refine ⟨fun e h => rfl, rfl, rfl, rfl, rfl, ?_⟩
        intro _ _ hka _
        exact absurd h2 (Nat.not_lt.mpr hka)
      · by_cases h3 : s.balances dst + value < ed
        · have hE : currencyTransfer ed src dst value s
              = (Except.error DispatchError.ExistentialDepositError, s) := by
            unfold currencyTransfer
            rw [if_neg h0, if_pos h1, if_neg h2, if_pos h3]
          rw [hE]
          refine ⟨fun e h => rfl, rfl, rfl, rfl, rfl, ?_⟩
          intro _ _ _ hex
          exact absurd h3 (Nat.not_lt.mpr hex)
        · have hE : currencyTransfer ed src dst value s
              = (Except.ok (),
                  { s with balances := fun a =>
                      if a = src then s.balances src - value
                      else if a = dst then s.balances dst + value
                      else s.balances a }) := by
            unfold currencyTransfer
            rw [if_neg h0, if_pos h1, if_neg h2, if_neg h3]
          rw [hE]
          refine ⟨?_, rfl, rfl, rfl, rfl, ?_⟩
          · intro e h
            simp at h
          intro hne _ _ _
          refine ⟨rfl, by simp, ?_, ?_⟩
          · have hd : dst ≠ src := fun h => hne h.symm
            simp [hd]
          · intro a ha1 ha2
            simp [ha1, ha2]
    · have hE : currencyTransfer ed src dst value s
          = (Except.error DispatchError.InsufficientBalance, s) := by
        unfold currencyTransfer
        rw [if_neg h0, if_neg h1]
      rw [hE]
      refine ⟨fun e h => rfl, rfl, rfl, rfl, rfl, ?_⟩
      intro _ hf _ _
      exact absurd hf h1

/-- Breeding a kitty with a byte-equal partner fails on the first check. -/
theorem Kitty_breed_self_eq (fp : Kitty) (childDna : List Nat) :
    Kitty.breed fp fp childDna = Except.error DispatchError.KittyPartnerMissing := by
  unfold Kitty.breed ensure_different_kitty
  simp

/-- Breeding two distinct kitties of equal gender fails on the second check. -/
theorem Kitty_breed_same_gender (fp sp : Kitty) (childDna : List Nat)
    (hne : fp ≠ sp) (hg : fp.gender = sp.gender) :
    Kitty.breed fp sp childDna
      = Except.error DispatchError.KittyGendersNotCompatible := by
  unfold Kitty.breed ensure_different_kitty ensure_different_gender
  simp [hne, hg]

/-- The gender check can only produce its error on distinct parents. -/
theorem Kitty_breed_gender_err (fp sp : Kitty) (childDna : List Nat)
    (h : Kitty.breed fp sp childDna
      = Except.error DispatchError.KittyGendersNotCompatible) :
    fp ≠ sp ∧ fp.gender = sp.gender := by
  unfold Kitty.breed ensure_different_kitty ensure_different_gender at h
  by_cases hne : fp = sp
  · simp [hne] at h
  · refine ⟨hne, ?_⟩
    by_cases hg : fp.gender = sp.gender
    · exact hg
    · simp [hne, hg] at h

/-! ### Claim theorems -/

/-- C6: gender is a pure total function of the DNA bytes — Male exactly
when the maximum byte is even, Female exactly when it is odd, with the
documented concrete values and the empty-bytes default. -/
theorem gender_pure_max_byte_parity :
    (∀ (dna : List Nat) (m : Nat), dna.max? = some m →
      ((get_gender_from_dna dna = Gender.Male ↔ m % 2 = 0) ∧
       (get_gender_from_dna dna = Gender.Female ↔ m % 2 = 1))) ∧
    get_gender_from_dna (List.replicate 16 0) = Gender.Male ∧
    get_gender_from_dna (1 :: List.replicate 15 0) = Gender.Female ∧
    get_gender_from_dna [] = Gender.Male := by
  refine ⟨?_, by decide, by decide, rfl⟩
  intro dna m hm
  unfold get_gender_from_dna
  rw [hm]
  rcases Nat.mod_two_eq_zero_or_one m with h | h <;> simp [h]

/-- C6 witness: the parity characterization applied to the DNA `[2, 5]`,
whose maximum byte is 5. -/
theorem gender_pure_max_byte_parity_witness :
    (get_gender_from_dna [2, 5] = Gender.Male ↔ 5 % 2 = 0) ∧
    (get_gender_from_dna [2, 5] = Gender.Female ↔ 5 % 2 = 1) :=
  gender_pure_max_byte_parity.1 [2, 5] 5 (by decide)

/-- C3: the distinct-parents check precedes the gender check —
`breed(a, a)` on an owned asset always fails `KittyPartnerMissing`, two
parent ids resolving to byte-equal DNAs fail the same way, and the
gender-incompatibility error can only arise once the two resolved DNAs
differ. -/
theorem breed_identical_parents_precede_gender (who : AccountId)
    (a b : TokenId) (childDna : List Nat) (s : State) :
    (∀ fp, kitties who a s = some fp →
      breed_kitty who a a childDna s
        = (Except.error DispatchError.KittyPartnerMissing, s)) ∧
    (∀ fp sp, kitties who a s = some fp → kitties who b s = some sp →
      fp = sp →
      breed_kitty who a b childDna s
        = (Except.error DispatchError.KittyPartnerMissing, s)) ∧
    ((breed_kitty who a b childDna s).1
        = Except.error DispatchError.KittyGendersNotCompatible →
      ∃ fp sp, kitties who a s = some fp ∧ kitties who b s = some sp ∧
        fp ≠ sp ∧ fp.gender = sp.gender) := by
  refine ⟨?_, ?_, ?_⟩
  · intro fp ha
    unfold breed_kitty
    simp [ha, Kitty_breed_self_eq]
  · intro fp sp ha hb heq
    unfold breed_kitty
    subst heq
    simp [ha, hb, Kitty_breed_self_eq]
  · intro h
    unfold breed_kitty at h
    cases ha : kitties who a s with
    | none => simp only [ha] at h; simp at h
    | some fp =>
      cases hb : kitties who b s with
      | none => simp only [ha, hb] at h; simp at h
      | some sp =>
        simp only [ha, hb] at h
        cases hbr : Kitty.breed fp sp childDna with
        | error e =>
          simp only [hbr] at h
          simp at h
          subst h
          obtain ⟨hne, hg⟩ := Kitty_breed_gender_err fp sp childDna hbr
          exact ⟨fp, sp, rfl, rfl, hne, hg⟩
        | ok kitty =>
          simp only [hbr] at h
          rcases nftMint_cases who kitty s with hm | hm <;>
            simp only [hm] at h <;> simp at h

/-- C3 witness: breeding token 0 with itself in a state where account 100
owns token 0. -/
theorem breed_identical_parents_precede_gender_witness :
    breed_kitty 100 0 0 [1] c3State
      = (Except.error DispatchError.KittyPartnerMissing, c3State) :=
  (breed_identical_parents_precede_gender 100 0 0 [1] c3State).1
    ⟨List.replicate 16 0⟩ rfl

/-- C4 counterexample: two assets of account 100 carry byte-equal all-zero
DNAs, so their maximum-byte parities coincide (both even), yet breeding
fails with `KittyPartnerMissing`, not `KittyGendersNotCompatible` — the
claim as stated (no side condition excluding byte-equal DNAs) is false. -/
theorem breed_same_parity_counterexample :
    kitties 100 0 c4CexState = some ⟨List.replicate 16 0⟩ ∧
    kitties 100 1 c4CexState = some ⟨List.replicate 16 0⟩ ∧
    (List.replicate 16 0 : List Nat).max? = some 0 ∧
    (breed_kitty 100 0 1 [1] c4CexState).1
      = Except.error DispatchError.KittyPartnerMissing ∧
    (breed_kitty 100 0 1 [1] c4CexState).1
      ≠ Except.error DispatchError.KittyGendersNotCompatible := by
  have hres : (breed_kitty 100 0 1 [1] c4CexState).1
      = Except.error DispatchError.KittyPartnerMissing := rfl
  refine ⟨rfl, rfl, by decide, hres, ?_⟩
  rw [hres]
  simp

/-- C4 (amended): for every two assets owned by the caller whose DNAs are
not byte-equal and whose maximum bytes have the same parity, `breed_kitty`
fails with `KittyGendersNotCompatible`.  (Byte-equal DNAs instead fail the
earlier distinct-parents check.) -/
theorem breed_same_parity_distinct_dna_fails (who : AccountId)
    (a b : TokenId) (childDna : List Nat) (s : State) (fp sp : Kitty)
    (m n : Nat) (ha : kitties who a s = some fp)
    (hb : kitties who b s = some sp) (hne : fp ≠ sp)
    (hm : fp.dna.max? = some m) (hn : sp.dna.max? = some n)
    (hpar : m % 2 = n % 2) :
    breed_kitty who a b childDna s
      = (Except.error DispatchError.KittyGendersNotCompatible, s) := by
  have hg : fp.gender = sp.gender := by
    unfold Kitty.gender get_gender_from_dna
    simp only [hm, hn]
    rw [hpar]
  unfold breed_kitty
  simp only [ha, hb, Kitty_breed_same_gender fp sp childDna hne hg]

/-- C4 witness: tokens 0 and 1 of account 100 carry distinct DNAs with even
maximum bytes 2 and 4; breeding fails `KittyGendersNotCompatible`. -/
theorem breed_same_parity_distinct_dna_fails_witness :
    breed_kitty 100 0 1 [1] c4State
      = (Except.error DispatchError.KittyGendersNotCompatible, c4State) :=
  breed_same_parity_distinct_dna_fails 100 0 1 [1] c4State
    ⟨2 :: List.replicate 15 0⟩ ⟨4 :: List.replicate 15 0⟩ 2 4
    rfl rfl (by decide) (by decide) (by decide) (by decide)

/-- C5: the parent lookup of `breed_kitty` is ownership-filtered — a token
owned by someone else resolves to `none` exactly like a missing token, and
either parent resolving to `none` fails the call with `KittyNotFound`. -/
theorem breed_lookup_ownership_filtered (who : AccountId) (a b : TokenId)
    (childDna : List Nat) (s : State) :
    (∀ info, s.tokens a = some info → info.owner ≠ who →
      kitties who a s = none) ∧
    (s.tokens a = none → kitties who a s = none) ∧
    (kitties who a s = none →
      breed_kitty who a b childDna s
        = (Except.error DispatchError.KittyNotFound, s)) ∧
    (∀ fp, kitties who a s = some fp → kitties who b s = none →
      breed_kitty who a b childDna s
        = (Except.error DispatchError.KittyNotFound, s)) := by
  refine ⟨?_, ?_, ?_, ?_⟩
  · intro info ht hown
    unfold kitties
    rw [ht]
    simp [hown]
  · intro ht
    unfold kitties
    rw [ht]
    rfl
  · intro ha
    unfold breed_kitty
    simp only [ha]
  · intro fp ha hb
    unfold breed_kitty
    simp only [ha, hb]

/-- C5 witness: account 101 calling breed on token 0 — which exists but is
owned by account 100 — fails `KittyNotFound`. -/
theorem breed_lookup_ownership_filtered_witness :
    kitties 101 0 c5State = none ∧
    breed_kitty 101 0 0 [1] c5State
      = (Except.error DispatchError.KittyNotFound, c5State) := by
  have h1 := (breed_lookup_ownership_filtered 101 0 0 [1] c5State).1
    ⟨100, ⟨List.replicate 16 0⟩⟩ rfl (by decide)
  exact ⟨h1, (breed_lookup_ownership_filtered 101 0 0 [1] c5State).2.2.1 h1⟩

/-- When the ownership check passes, `set_price` rewrites the listing and
deposits its event. -/
theorem set_price_eq_of_owner (who : AccountId) (k : TokenId)
    (new_price : Option Balance) (s : State)
    (hc : tokensByOwnerContains who k s = true) :
    set_price who k new_price s
      = (Except.ok (),
          depositEvent (Event.KittyPriceUpdated k new_price who)
            (setExchange k (new_price.map fun p => ⟨who, p⟩) s)) := by
  unfold set_price
  rw [hc]
  cases new_price <;> rfl

/-- The ownership-index check holds exactly when the token exists with the
given owner. -/
theorem tokensByOwnerContains_iff (who : AccountId) (k : TokenId)
    (s : State) :
    tokensByOwnerContains who k s = true
      ↔ ∃ info, s.tokens k = some info ∧ info.owner = who := by
  unfold tokensByOwnerContains
  cases ht : s.tokens k with
  | none => simp
  | some info => simp

/-- C7: `transfer_kitty` to oneself on an owned asset succeeds as a strict
no-op (the state is returned untouched: no event, no listing change), still
fails when the asset does not exist, and a successful transfer to a
different account clears the asset's listing and deposits exactly one
`KittyTransfer` event. -/
theorem transfer_kitty_self_noop (who : AccountId) (k : TokenId)
    (s : State) :
    (∀ info, s.tokens k = some info → info.owner = who →
      transfer_kitty who who k s = (Except.ok (), s)) ∧
    (s.tokens k = none →
      transfer_kitty who who k s
        = (Except.error DispatchError.TokenNotFound, s)) ∧
    (∀ receiver, who ≠ receiver →
      (transfer_kitty who receiver k s).1 = Except.ok () →
      ((transfer_kitty who receiver k s).2).kittyExchange k = none ∧
      ((transfer_kitty who receiver k s).2).events
        = s.events ++ [Event.KittyTransfer k who receiver]) := by
  refine ⟨?_, ?_, ?_⟩
  · intro info ht hown
    unfold transfer_kitty nftTransfer
    simp only [ht]
    simp [hown]
  · intro ht
    unfold transfer_kitty nftTransfer
    simp only [ht]
  · intro receiver hne hok
    unfold transfer_kitty at hok ⊢
    cases hnt : nftTransfer who receiver k s with
    | mk r s1 =>
      simp only [hnt] at hok ⊢
      cases r with
      | error e => simp at hok
      | ok u =>
        have hfr := nftTransfer_spec who receiver k s
        have hcase := hfr.2 (by rw [hnt])
        rcases hcase with ⟨info, _, _, hshape⟩
        rcases hshape with ⟨heq, _⟩ | ⟨_, hstate⟩
        · exact absurd heq hne
        · have hs1 : s1 = setToken k (some ⟨receiver, info.data⟩) s := by
            rw [hnt] at hstate
            exact hstate
          subst hs1
          simp [hne]

/-- C7 witness: self-transfer of the owned token 0 is the identity on the
whole state; a self-transfer of the missing token 5 fails. -/
theorem transfer_kitty_self_noop_witness :
    transfer_kitty 7 7 0 c7State = (Except.ok (), c7State) ∧
    transfer_kitty 7 7 5 c7State
      = (Except.error DispatchError.TokenNotFound, c7State) :=
  ⟨(transfer_kitty_self_noop 7 0 c7State).1 ⟨7, ⟨List.replicate 16 0⟩⟩ rfl rfl,
   (transfer_kitty_self_noop 7 5 c7State).2.1 rfl⟩

/-- C8: `set_price` fails `KittyNotFound` whenever the caller is not the
recorded owner in the registry's ownership index; for the owner it
(re)writes the listing to `(caller, price)` or removes it, leaves every
other key, the token table and the balances untouched, and deposits exactly
one `KittyPriceUpdated` event. -/
theorem set_price_ownership_and_effects (who : AccountId) (k : TokenId)
    (new_price : Option Balance) (s : State) :
    (∀ info, s.tokens k = some info → info.owner ≠ who →
      set_price who k new_price s
        = (Except.error DispatchError.KittyNotFound, s)) ∧
    (s.tokens k = none →
      set_price who k new_price s
        = (Except.error DispatchError.KittyNotFound, s)) ∧
    (∀ info, s.tokens k = some info → info.owner = who →
      (set_price who k new_price s).1 = Except.ok () ∧
      ((set_price who k new_price s).2).kittyExchange k
        = new_price.map (fun p => ⟨who, p⟩) ∧
      (∀ j, j ≠ k →
        ((set_price who k new_price s).2).kittyExchange j
          = s.kittyExchange j) ∧
      ((set_price who k new_price s).2).tokens = s.tokens ∧
      ((set_price who k new_price s).2).balances = s.balances ∧
      ((set_price who k new_price s).2).events
        = s.events ++ [Event.KittyPriceUpdated k new_price who]) := by
  refine ⟨?_, ?_, ?_⟩
  · intro info ht hown
    unfold set_price tokensByOwnerContains
    simp only [ht]
    simp [hown]
  · intro ht
    unfold set_price tokensByOwnerContains
    simp only [ht]
    simp
  · intro info ht hown
    have hc : tokensByOwnerContains who k s = true :=
      (tokensByOwnerContains_iff who k s).mpr ⟨info, ht, hown⟩
    have hE := set_price_eq_of_owner who k new_price s hc
    rw [hE]
    refine ⟨rfl, by simp, ?_, rfl, rfl, rfl⟩
    intro j hj
    simp [hj]

/-- C8 witness: the owner relists token 0 at price 99 (replacing the prior
listing at 55), and a non-owner's attempt fails `KittyNotFound`. -/
theorem set_price_ownership_and_effects_witness :
    ((set_price 7 0 (some 99) c8State).1 = Except.ok () ∧
     ((set_price 7 0 (some 99) c8State).2).kittyExchange 0 = some ⟨7, 99⟩ ∧
     ((set_price 7 0 (some 99) c8State).2).events
       = c8State.events ++ [Event.KittyPriceUpdated 0 (some 99) 7]) ∧
    set_price 8 0 (some 99) c8State
      = (Except.error DispatchError.KittyNotFound, c8State) := by
  have h := (set_price_ownership_and_effects 7 0 (some 99) c8State).2.2
    ⟨7, ⟨List.replicate 16 0⟩⟩ rfl rfl
  exact ⟨⟨h.1, h.2.1, h.2.2.2.2.2⟩,
    (set_price_ownership_and_effects 8 0 (some 99) c8State).1
      ⟨7, ⟨List.replicate 16 0⟩⟩ rfl (by decide)⟩

/-- Any failing `buy_kitty` leaves the state untouched: the `try_mutate`
write-back is skipped on `Err` and the transactional body rolls back. -/
theorem buy_kitty_err_frame (ed : Nat) (who : AccountId) (k : TokenId)
    (s : State) (e : DispatchError)
    (h : (buy_kitty ed who k s).1 = Except.error e) :
    (buy_kitty ed who k s).2 = s := by
  rw [buy_kitty_eq] at h ⊢
  cases hx : s.kittyExchange k with
  | none => simp only [hx]
  | some listing =>
    simp only [hx] at h ⊢
    by_cases hw : who = listing.seller
    · rw [if_pos hw]
    · rw [if_neg hw] at h ⊢
      cases hb : buy_exec ed who k listing s with
      | mk r s1 =>
        simp only [hb] at h ⊢
        cases r with
        | ok u => simp at h
        | error e2 => rfl

/-- A successful `buy_kitty` took an existing listing by a different
seller, ran the transactional body successfully, and wrote the taken
(`none`) listing value back. -/
theorem buy_kitty_ok_shape (ed : Nat) (who : AccountId) (k : TokenId)
    (s : State) (h : (buy_kitty ed who k s).1 = Except.ok ()) :
    ∃ listing, s.kittyExchange k = some listing ∧ who ≠ listing.seller ∧
      (buy_exec ed who k listing s).1 = Except.ok () ∧
      (buy_kitty ed who k s).2
        = setExchange k none (buy_exec ed who k listing s).2 := by
  rw [buy_kitty_eq] at h ⊢
  cases hx : s.kittyExchange k with
  | none => simp only [hx] at h; simp at h
  | some listing =>
    simp only [hx] at h ⊢
    by_cases hw : who = listing.seller
    · rw [if_pos hw] at h
      simp at h
    · rw [if_neg hw] at h ⊢
      refine ⟨listing, rfl, hw, ?_⟩
      cases hb : buy_exec ed who k listing s with
      | mk r s1 =>
        simp only [hb] at h ⊢
        cases r with
        | error e2 => simp at h
        | ok u => exact ⟨rfl, rfl⟩

/-- A successful transactional body of `buy_kitty`: the registry transfer
and the currency transfer both succeeded and the `KittySold` event was
deposited on top of their outcome. -/
theorem buy_exec_ok_shape (ed : Nat) (who : AccountId) (k : TokenId)
    (listing : Listing) (s : State)
    (h : (buy_exec ed who k listing s).1 = Except.ok ()) :
    (nftTransfer listing.seller who k s).1 = Except.ok () ∧
    (currencyTransfer ed who listing.seller listing.price
        (nftTransfer listing.seller who k s).2).1 = Except.ok () ∧
    (buy_exec ed who k listing s).2
      = depositEvent (Event.KittySold k listing.price listing.seller who)
          (currencyTransfer ed who listing.seller listing.price
            (nftTransfer listing.seller who k s).2).2 := by
  unfold buy_exec at h ⊢
  cases hnt : nftTransfer listing.seller who k s with
  | mk r1 t1 =>
    simp only [hnt] at h ⊢
    cases r1 with
    | error e => simp at h
    | ok u =>
      cases hct : currencyTransfer ed who listing.seller listing.price t1 with
      | mk r2 t2 =>
        simp only [hct] at h ⊢
        cases r2 with
        | error e => simp at h
        | ok v => refine ⟨?_, ?_, ?_⟩ <;> trivial

/-- C1: `buy_kitty` is all-or-nothing — a missing listing fails
`KittyNotForSale`, a self-purchase fails `CannotBuyOwnKitty` with the taken
listing restored, and on every failure (including a failing delegated asset
transfer or currency transfer) the returned state is exactly the input
state: same listings, same ownership, same balances, same events. -/
theorem buy_kitty_all_or_nothing (ed : Nat) (who : AccountId) (k : TokenId)
    (s : State) :
    (s.kittyExchange k = none →
      buy_kitty ed who k s
        = (Except.error DispatchError.KittyNotForSale, s)) ∧
    (∀ price, s.kittyExchange k = some ⟨who, price⟩ →
      buy_kitty ed who k s
        = (Except.error DispatchError.CannotBuyOwnKitty, s)) ∧
    (∀ e, (buy_kitty ed who k s).1 = Except.error e →
      (buy_kitty ed who k s).2 = s) := by
  refine ⟨?_, ?_, fun e h => buy_kitty_err_frame ed who k s e h⟩
  · intro h
    rw [buy_kitty_eq]
    simp only [h]
  · intro price h
    rw [buy_kitty_eq]
    simp only [h]
    rfl

/-- C1 witness: buying the unlisted token 3 fails `KittyNotForSale` with
the state unchanged; the seller buying their own listed token 0 fails
`CannotBuyOwnKitty` with the state (listing included) unchanged. -/
theorem buy_kitty_all_or_nothing_witness :
    buy_kitty 1 9 3 c2State
      = (Except.error DispatchError.KittyNotForSale, c2State) ∧
    buy_kitty 1 7 0 c2State
      = (Except.error DispatchError.CannotBuyOwnKitty, c2State) :=
  ⟨(buy_kitty_all_or_nothing 1 9 3 c2State).1 rfl,
   (buy_kitty_all_or_nothing 1 7 0 c2State).2.1 40 rfl⟩

/-- C2: for every listed asset `(seller, price)`, a caller distinct from
the seller with sufficient funds succeeds: ownership moves seller → caller,
the price moves caller → seller, the listing is removed, everything else is
untouched, and exactly one `KittySold (id, price, seller, buyer)` event is
deposited. -/
theorem buy_kitty_success (ed : Nat) (who seller : AccountId) (k : TokenId)
    (price : Balance) (data : Kitty) (s : State)
    (hl : s.kittyExchange k = some ⟨seller, price⟩)
    (hw : who ≠ seller)
    (ht : s.tokens k = some ⟨seller, data⟩)
    (hfund : price ≤ s.balances who)
    (hka : ed ≤ s.balances who - price)
    (hex : ed ≤ s.balances seller + price) :
    (buy_kitty ed who k s).1 = Except.ok () ∧
    ((buy_kitty ed who k s).2).tokens k = some ⟨who, data⟩ ∧
    (∀ j, j ≠ k → ((buy_kitty ed who k s).2).tokens j = s.tokens j) ∧
    ((buy_kitty ed who k s).2).kittyExchange k = none ∧
    (∀ j, j ≠ k →
      ((buy_kitty ed who k s).2).kittyExchange j = s.kittyExchange j) ∧
    ((buy_kitty ed who k s).2).balances seller
      = s.balances seller + price ∧
    ((buy_kitty ed who k s).2).balances who = s.balances who - price ∧
    (∀ a, a ≠ who → a ≠ seller →
      ((buy_kitty ed who k s).2).balances a = s.balances a) ∧
    ((buy_kitty ed who k s).2).events
      = s.events ++ [Event.KittySold k price seller who] := by
  have hsw : seller ≠ who := fun hc => hw hc.symm
  have hE1 : nftTransfer seller who k s
      = (Except.ok (), setToken k (some ⟨who, data⟩) s) := by
    unfold nftTransfer
    simp [ht, hsw]
  have hcs := currencyTransfer_spec ed who seller price
    (setToken k (some ⟨who, data⟩) s)
  have hsucc := hcs.2.2.2.2.2 hw hfund hka hex
  have hb : buy_exec ed who k ⟨seller, price⟩ s
      = (Except.ok (),
          depositEvent (Event.KittySold k price seller who)
            (currencyTransfer ed who seller price
              (setToken k (some ⟨who, data⟩) s)).2) := by
    unfold buy_exec
    simp only [hE1]
    cases hct : currencyTransfer ed who seller price
        (setToken k (some ⟨who, data⟩) s) with
    | mk r2 t2 =>
      have hr2 : r2 = Except.ok () := by
        have h1 := hsucc.1
        rw [hct] at h1
        exact h1
      simp only [hct, hr2]
  have hbuy : buy_kitty ed who k s
      = (Except.ok (),
          setExchange k none
            (depositEvent (Event.KittySold k price seller who)
              (currencyTransfer ed who seller price
                (setToken k (some ⟨who, data⟩) s)).2)) := by
    rw [buy_kitty_eq]
    simp only [hl]
    rw [if_neg hw]
    simp only [hb]
  rw [hbuy]
  refine ⟨rfl, ?_, ?_, ?_, ?_, ?_, ?_, ?_, ?_⟩
  · simp [hcs.2.1]
  · intro j hj
    simp [hcs.2.1, hj]
  · simp
  · intro j hj
    simp [hcs.2.2.1, hj]
  · simp [hsucc.2.2.1]
  · simp [hsucc.2.1]
  · intro a ha1 ha2
    simp [hsucc.2.2.2 a ha1 ha2]
  · simp [hcs.2.2.2.1]

/-- C2 witness: account 9 buys token 0 listed by account 7 at price 40 with
everyone holding 100: ownership, both balances, the listing and the single
`KittySold` event all change as specified. -/
theorem buy_kitty_success_witness :
    (buy_kitty 1 9 0 c2State).1 = Except.ok () ∧
    ((buy_kitty 1 9 0 c2State).2).tokens 0
      = some ⟨9, ⟨List.replicate 16 0⟩⟩ ∧
    ((buy_kitty 1 9 0 c2State).2).kittyExchange 0 = none ∧
    ((buy_kitty 1 9 0 c2State).2).balances 7 = c2State.balances 7 + 40 ∧
    ((buy_kitty 1 9 0 c2State).2).balances 9 = c2State.balances 9 - 40 ∧
    ((buy_kitty 1 9 0 c2State).2).events
      = c2State.events ++ [Event.KittySold 0 40 7 9] := by
  have h := buy_kitty_success 1 9 7 0 40 ⟨List.replicate 16 0⟩ c2State rfl
    (by decide) rfl (by decide) (by decide) (by decide)
  exact ⟨h.1, h.2.1, h.2.2.2.1, h.2.2.2.2.2.1, h.2.2.2.2.2.2.1,
    h.2.2.2.2.2.2.2.2⟩

/-- The registry transfer never touches listings, balances, the mint
counter or the event sink. -/
theorem nftTransfer_frame (src dst : AccountId) (tokenId : TokenId)
    (s : State) :
    ((nftTransfer src dst tokenId s).2).kittyExchange = s.kittyExchange ∧
    ((nftTransfer src dst tokenId s).2).events = s.events ∧
    ((nftTransfer src dst tokenId s).2).balances = s.balances ∧
    ((nftTransfer src dst tokenId s).2).nextTokenId = s.nextTokenId := by
  unfold nftTransfer
  cases s.tokens tokenId with
  | none => exact ⟨rfl, rfl, rfl, rfl⟩
  | some info =>
    by_cases h1 : info.owner = src
    · by_cases h2 : src = dst <;> simp [h1, h2]
    · simp [h1]

/-- `create_kitty` either fails on an exhausted id space leaving the state
unchanged, or mints at the fresh id and deposits one `KittyCreated`. -/
theorem create_kitty_cases (who : AccountId) (dna : List Nat) (s : State) :
    create_kitty who dna s
      = (Except.error DispatchError.NoAvailableTokenId, s) ∨
    create_kitty who dna s
      = (Except.ok (),
          depositEvent (Event.KittyCreated (Kitty.mk dna) s.nextTokenId who)
            { setToken s.nextTokenId (some ⟨who, Kitty.mk dna⟩) s with
                nextTokenId := s.nextTokenId + 1 }) := by
  rcases nftMint_cases who (Kitty.mk dna) s with hm | hm
  · right
    unfold create_kitty
    simp only [hm]
  · left
    unfold create_kitty
    simp only [hm]

/-- `breed_kitty` either fails leaving the state unchanged, or mints the
child at the fresh id and deposits one `KittyBred`. -/
theorem breed_kitty_cases (who : AccountId) (a b : TokenId)
    (childDna : List Nat) (s : State) :
    (∃ e, breed_kitty who a b childDna s = (Except.error e, s)) ∨
    (∃ kitty, breed_kitty who a b childDna s
      = (Except.ok (),
          depositEvent (Event.KittyBred kitty s.nextTokenId who)
            { setToken s.nextTokenId (some ⟨who, kitty⟩) s with
                nextTokenId := s.nextTokenId + 1 })) := by
  unfold breed_kitty
  cases ha : kitties who a s with
  | none => exact Or.inl ⟨_, rfl⟩
  | some fp =>
    cases hb : kitties who b s with
    | none => exact Or.inl ⟨_, rfl⟩
    | some sp =>
      cases hbr : Kitty.breed fp sp childDna with
      | error e => exact Or.inl ⟨e, by simp only [hbr]⟩
      | ok kitty =>
        rcases nftMint_cases who kitty s with hm | hm
        · exact Or.inr ⟨kitty, by simp only [hbr, hm]⟩
        · exact Or.inl ⟨DispatchError.NoAvailableTokenId, by simp only [hbr, hm]⟩

/-- `transfer_kitty` either fails leaving the state unchanged, succeeds as
the identity on a self-transfer, or rewrites the owner, clears the listing
and deposits one `KittyTransfer`. -/
theorem transfer_kitty_cases (who receiver : AccountId) (k : TokenId)
    (s : State) :
    (∃ e, transfer_kitty who receiver k s = (Except.error e, s)) ∨
    (who = receiver ∧ transfer_kitty who receiver k s = (Except.ok (), s)) ∨
    (∃ info, who ≠ receiver ∧ s.tokens k = some info ∧ info.owner = who ∧
      transfer_kitty who receiver k s
        = (Except.ok (),
            depositEvent (Event.KittyTransfer k who receiver)
              (setExchange k none
                (setToken k (some ⟨receiver, info.data⟩) s)))) := by
  have hspec := nftTransfer_spec who receiver k s
  cases hnt : nftTransfer who receiver k s with
  | mk r s1 =>
    cases r with
    | error e =>
      left
      have h2 : s1 = s := by
        have hh := hspec.1 e (by rw [hnt])
        rw [hnt] at hh
        exact hh
      subst h2
      refine ⟨e, ?_⟩
      unfold transfer_kitty
      simp only [hnt]
    | ok u =>
      have hsh := hspec.2 (by rw [hnt])
      rcases hsh with ⟨info, htk, hown, ⟨heq, hst⟩ | ⟨hne, hst⟩⟩
      · right; left
        refine ⟨heq, ?_⟩
        rw [hnt] at hst
        simp at hst
        unfold transfer_kitty
        simp only [hnt]
        rw [if_neg (fun hc => hc heq), hst]
      · right; right
        rw [hnt] at hst
        simp at hst
        refine ⟨info, hne, htk, hown, ?_⟩
        unfold transfer_kitty
        simp only [hnt]
        rw [if_pos hne, hst]

/-- `set_price` either fails the ownership check leaving the state
unchanged, or rewrites the listing and deposits one `KittyPriceUpdated`. -/
theorem set_price_cases (who : AccountId) (k : TokenId) (p : Option Balance)
    (s : State) :
    (tokensByOwnerContains who k s = false ∧
      set_price who k p s = (Except.error DispatchError.KittyNotFound, s)) ∨
    (tokensByOwnerContains who k s = true ∧
      set_price who k p s
        = (Except.ok (),
            depositEvent (Event.KittyPriceUpdated k p who)
              (setExchange k (p.map fun pr => ⟨who, pr⟩) s))) := by
  cases hc : tokensByOwnerContains who k s with
  | false =>
    left
    refine ⟨rfl, ?_⟩
    unfold set_price
    rw [hc]
    exact rfl
  | true => exact Or.inr ⟨rfl, set_price_eq_of_owner who k p s hc⟩

/-- C9 counterexample: a successful self-transfer of an owned, existing
asset deposits zero events, refuting "exactly one event on every success,
with no exception for the self-transfer case". -/
theorem one_event_per_success_counterexample :
    (transfer_kitty 100 100 0 c9State).1 = Except.ok () ∧
    c9State.events = [] ∧
    ((transfer_kitty 100 100 0 c9State).2).events = [] :=
  ⟨rfl, rfl, rfl⟩

/-- C9 (amended): every mutating dispatchable deposits exactly one pallet
event when it succeeds and zero when it fails — except `transfer_kitty`
with caller = receiver, which succeeds with zero events. -/
theorem event_discipline (ed : Nat) (who receiver : AccountId)
    (a b k : TokenId) (dna : List Nat) (p : Option Balance) (s : State) :
    ((∀ e, (create_kitty who dna s).1 = Except.error e →
        ((create_kitty who dna s).2).events = s.events) ∧
     ((create_kitty who dna s).1 = Except.ok () →
        ∃ ev, ((create_kitty who dna s).2).events = s.events ++ [ev])) ∧
    ((∀ e, (breed_kitty who a b dna s).1 = Except.error e →
        ((breed_kitty who a b dna s).2).events = s.events) ∧
     ((breed_kitty who a b dna s).1 = Except.ok () →
        ∃ ev, ((breed_kitty who a b dna s).2).events = s.events ++ [ev])) ∧
    ((∀ e, (transfer_kitty who receiver k s).1 = Except.error e →
        ((transfer_kitty who receiver k s).2).events = s.events) ∧
     ((transfer_kitty who receiver k s).1 = Except.ok () → who ≠ receiver →
        ∃ ev, ((transfer_kitty who receiver k s).2).events
          = s.events ++ [ev]) ∧
     ((transfer_kitty who who k s).1 = Except.ok () →
        ((transfer_kitty who who k s).2).events = s.events)) ∧
    ((∀ e, (set_price who k p s).1 = Except.error e →
        ((set_price who k p s).2).events = s.events) ∧
     ((set_price who k p s).1 = Except.ok () →
        ∃ ev, ((set_price who k p s).2).events = s.events ++ [ev])) ∧
    ((∀ e, (buy_kitty ed who k s).1 = Except.error e →
        ((buy_kitty ed who k s).2).events = s.events) ∧
     ((buy_kitty ed who k s).1 = Except.ok () →
        ∃ ev, ((buy_kitty ed who k s).2).events = s.events ++ [ev])) := by
  refine ⟨⟨?_, ?_⟩, ⟨?_, ?_⟩, ⟨?_, ?_, ?_⟩, ⟨?_, ?_⟩, ⟨?_, ?_⟩⟩
  · intro e he
    rcases create_kitty_cases who dna s with h | h
    · rw [h]
    · rw [h] at he
      simp at he
  · intro hok
    rcases create_kitty_cases who dna s with h | h
    · rw [h] at hok
      simp at hok
    · rw [h]
      exact ⟨Event.KittyCreated (Kitty.mk dna) s.nextTokenId who, by simp⟩
  · intro e he
    rcases breed_kitty_cases who a b dna s with ⟨e2, h⟩ | ⟨kitty, h⟩
    · rw [h]
    · rw [h] at he
      simp at he
  · intro hok
    rcases breed_kitty_cases who a b dna s with ⟨e2, h⟩ | ⟨kitty, h⟩
    · rw [h] at hok
      simp at hok
    · rw [h]
      exact ⟨Event.KittyBred kitty s.nextTokenId who, by simp⟩
  · intro e he
    rcases transfer_kitty_cases who receiver k s with
      ⟨e2, h⟩ | ⟨_, h⟩ | ⟨info, _, _, _, h⟩
    · rw [h]
    · rw [h] at he
      simp at he
    · rw [h] at he
      simp at he
  · intro hok hne
    rcases transfer_kitty_cases who receiver k s with
      ⟨e2, h⟩ | ⟨heq, h⟩ | ⟨info, _, _, _, h⟩
    · rw [h] at hok
      simp at hok
    · exact absurd heq hne
    · rw [h]
      exact ⟨Event.KittyTransfer k who receiver, by simp⟩
  · intro hok
    rcases transfer_kitty_cases who who k s with
      ⟨e2, h⟩ | ⟨_, h⟩ | ⟨info, hne, _, _, h⟩
    · rw [h] at hok
      simp at hok
    · rw [h]
    · exact absurd rfl hne
  · intro e he
    rcases set_price_cases who k p s with ⟨_, h⟩ | ⟨_, h⟩
    · rw [h]
    · rw [h] at he
      simp at he
  · intro hok
    rcases set_price_cases who k p s with ⟨_, h⟩ | ⟨_, h⟩
    · rw [h] at hok
      simp at hok
    · rw [h]
      exact ⟨Event.KittyPriceUpdated k p who, by simp⟩
  · intro e he
    rw [buy_kitty_err_frame ed who k s e he]
  · intro hok
    obtain ⟨listing, hx, hw, hexec, hst⟩ := buy_kitty_ok_shape ed who k s hok
    obtain ⟨hnt, hct, hbe⟩ := buy_exec_ok_shape ed who k listing s hexec
    refine ⟨Event.KittySold k listing.price listing.seller who, ?_⟩
    rw [hst, hbe]
    have h1 := (currencyTransfer_spec ed who listing.seller listing.price
      (nftTransfer listing.seller who k s).2).2.2.2.1
    have h2 := (nftTransfer_frame listing.seller who k s).2.1
    simp [h1, h2]

/-- C9 witness: a successful `create_kitty` deposits exactly one event, and
a failing `buy_kitty` (nothing listed) deposits none. -/
theorem event_discipline_witness :
    (∃ ev, ((create_kitty 7 (List.replicate 16 0) (genesisState fun _ => 0)).2).events
      = (genesisState fun _ => 0).events ++ [ev]) ∧
    ((buy_kitty 1 7 0 (genesisState fun _ => 0)).2).events
      = (genesisState fun _ => 0).events :=
  ⟨(event_discipline 1 7 7 0 0 0 (List.replicate 16 0) none
      (genesisState fun _ => 0)).1.2 rfl,
   (event_discipline 1 7 7 0 0 0 (List.replicate 16 0) none
      (genesisState fun _ => 0)).2.2.2.2.1
      DispatchError.KittyNotForSale rfl⟩

/-- Minting at the fresh id preserves the invariant: the fresh id had no
token and (hence, by the invariant) no listing pointing at it. -/
theorem inv_mint_state (who : AccountId) (kitty : Kitty) (ev : Event)
    (s : State) (h : Inv s) :
    Inv (depositEvent ev
      { setToken s.nextTokenId (some ⟨who, kitty⟩) s with
          nextTokenId := s.nextTokenId + 1 }) := by
  obtain ⟨hf, hl⟩ := h
  constructor
  · intro i hi
    have hi2 : s.nextTokenId + 1 ≤ i := hi
    have hne : i ≠ s.nextTokenId := by
      intro hc
      rw [hc] at hi2
      exact Nat.not_succ_le_self _ hi2
    have hz : s.tokens i = none := hf i (Nat.le_of_succ_le hi2)
    show (if i = s.nextTokenId then some (⟨who, kitty⟩ : TokenInfo)
          else s.tokens i) = none
    rw [if_neg hne]
    exact hz
  · intro j l hj
    have hj2 : s.kittyExchange j = some l := hj
    obtain ⟨info, hinfo, hown⟩ := hl j l hj2
    have hne : j ≠ s.nextTokenId := by
      intro hc
      rw [hc, hf s.nextTokenId (le_refl _)] at hinfo
      exact Option.noConfusion hinfo
    refine ⟨info, ?_, hown⟩
    show (if j = s.nextTokenId then some (⟨who, kitty⟩ : TokenInfo)
          else s.tokens j) = some info
    rw [if_neg hne]
    exact hinfo

/-- `create_kitty` preserves the invariant. -/
theorem inv_create (who : AccountId) (dna : List Nat) (s : State)
    (h : Inv s) : Inv (create_kitty who dna s).2 := by
  rcases create_kitty_cases who dna s with hc | hc
  · rw [hc]
    exact h
  · rw [hc]
    exact inv_mint_state who (Kitty.mk dna) _ s h

/-- `breed_kitty` preserves the invariant. -/
theorem inv_breed (who : AccountId) (a b : TokenId) (childDna : List Nat)
    (s : State) (h : Inv s) : Inv (breed_kitty who a b childDna s).2 := by
  rcases breed_kitty_cases who a b childDna s with ⟨e, hc⟩ | ⟨kitty, hc⟩
  · rw [hc]
    exact h
  · rw [hc]
    exact inv_mint_state who kitty _ s h

/-- `transfer_kitty` preserves the invariant. -/
theorem inv_transfer (who receiver : AccountId) (k : TokenId) (s : State)
    (h : Inv s) : Inv (transfer_kitty who receiver k s).2 := by
  obtain ⟨hf, hl⟩ := h
  rcases transfer_kitty_cases who receiver k s with
    ⟨e, hc⟩ | ⟨_, hc⟩ | ⟨info, hne, htk, hown, hc⟩
  · rw [hc]
    exact ⟨hf, hl⟩
  · rw [hc]
    exact ⟨hf, hl⟩
  · rw [hc]
    have hklt : ¬ s.nextTokenId ≤ k := by
      intro hc2
      rw [hf k hc2] at htk
      exact Option.noConfusion htk
    constructor
    · intro i hi
      simp at hi
      have hik : i ≠ k := by
        intro hc2
        subst hc2
        exact hklt hi
      have hz : s.tokens i = none := hf i hi
      simp [hik, hz]
    · intro j l hj
      simp at hj
      rcases hj with ⟨hjk, hj⟩
      obtain ⟨info2, hinfo2, hown2⟩ := hl j l hj
      refine ⟨info2, ?_, hown2⟩
      simp [hjk, hinfo2]

/-- `set_price` preserves the invariant. -/
theorem inv_set_price (who : AccountId) (k : TokenId) (p : Option Balance)
    (s : State) (h : Inv s) : Inv (set_price who k p s).2 := by
  obtain ⟨hf, hl⟩ := h
  rcases set_price_cases who k p s with ⟨_, hc⟩ | ⟨hown, hc⟩
  · rw [hc]
    exact ⟨hf, hl⟩
  · rw [hc]
    constructor
    · intro i hi
      simp at hi
      exact hf i hi
    · intro j l hj
      simp at hj
      by_cases hjk : j = k
      · subst hjk
        rw [if_pos rfl] at hj
        obtain ⟨info, hinfo, howner⟩ :=
          (tokensByOwnerContains_iff who j s).mp hown
        cases p with
        | none => simp at hj
        | some pr =>
          simp at hj
          refine ⟨info, hinfo, ?_⟩
          rw [howner, ← hj]
      · rw [if_neg hjk] at hj
        exact hl j l hj

/-- `buy_kitty` preserves the invariant. -/
theorem inv_buy (ed : Nat) (who : AccountId) (k : TokenId) (s : State)
    (h : Inv s) : Inv (buy_kitty ed who k s).2 := by
  obtain ⟨hf, hl⟩ := h
  cases hr : (buy_kitty ed who k s).1 with
  | error e =>
    rw [buy_kitty_err_frame ed who k s e hr]
    exact ⟨hf, hl⟩
  | ok u =>
    obtain ⟨listing, hx, hw, hexec, hst⟩ :=
      buy_kitty_ok_shape ed who k s (by rw [hr])
    obtain ⟨hnt, hct, hbe⟩ := buy_exec_ok_shape ed who k listing s hexec
    obtain ⟨info, htk, hown, hshape⟩ := (nftTransfer_spec listing.seller who k s).2 hnt
    have hcf := currencyTransfer_spec ed who listing.seller listing.price
      (nftTransfer listing.seller who k s).2
    rcases hshape with ⟨heq, _⟩ | ⟨_, hts⟩
    · exact absurd heq.symm hw
    · have hklt : ¬ s.nextTokenId ≤ k := by
        intro hc2
        rw [hf k hc2] at htk
        exact Option.noConfusion htk
      have hnid : ((buy_kitty ed who k s).2).nextTokenId = s.nextTokenId := by
        rw [hst, hbe, setExchange_nextTokenId, depositEvent_nextTokenId,
          hcf.2.2.2.2.1, hts, setToken_nextTokenId]
      have htok : ∀ i, ((buy_kitty ed who k s).2).tokens i
          = if i = k then some ⟨who, info.data⟩ else s.tokens i := by
        intro i
        rw [hst, hbe, setExchange_tokens, depositEvent_tokens, hcf.2.1,
          hts, setToken_tokens]
      have hexch : ∀ j, ((buy_kitty ed who k s).2).kittyExchange j
          = if j = k then none else s.kittyExchange j := by
        intro j
        rw [hst, hbe]
        rw [setExchange_kittyExchange, depositEvent_kittyExchange,
          hcf.2.2.1, hts, setToken_kittyExchange]
      constructor
      · intro i hi
        rw [hnid] at hi
        have hik : i ≠ k := fun hc2 => hklt (hc2 ▸ hi)
        rw [htok i, if_neg hik]
        exact hf i hi
      · intro j l hj
        rw [hexch j] at hj
        by_cases hjk : j = k
        · rw [if_pos hjk] at hj
          exact Option.noConfusion hj
        · rw [if_neg hjk] at hj
          obtain ⟨info2, hinfo2, hown2⟩ := hl j l hj
          refine ⟨info2, ?_, hown2⟩
          rw [htok j, if_neg hjk]
          exact hinfo2

/-- Every reachable state satisfies the inductive invariant. -/
theorem reachable_inv (s : State) (h : Reachable s) : Inv s := by
  induction h with
  | genesis bal =>
    constructor
    · intro i _
      rfl
    · intro j l hj
      exact Option.noConfusion hj
  | create who dna s _ ih => exact inv_create who dna s ih
  | breed who a b childDna s _ ih => exact inv_breed who a b childDna s ih
  | transfer who receiver k s _ ih => exact inv_transfer who receiver k s ih
  | price who k p s _ ih => exact inv_set_price who k p s ih
  | buy ed who k s _ ih => exact inv_buy ed who k s ih

/-- C10: in every reachable state, every active listing's seller is the
listed asset's current owner — no operation can make a listing stale. -/
theorem listing_seller_is_owner_invariant (s : State) (h : Reachable s)
    (k : TokenId) (l : Listing) (hl : s.kittyExchange k = some l) :
    ∃ info, s.tokens k = some info ∧ info.owner = l.seller :=
  (reachable_inv s h).2 k l hl

/-- C10 witness: in the reachable state where account 7 created and listed
token 0 at 40, the listing's seller 7 is the owner of token 0. -/
theorem listing_seller_is_owner_invariant_witness :
    ∃ info, c10State.tokens 0 = some info ∧ info.owner = 7 :=
  listing_seller_is_owner_invariant c10State
    (Reachable.price 7 0 (some 40)
      (create_kitty 7 (List.replicate 16 0) (genesisState fun _ => 0)).2
      (Reachable.create 7 (List.replicate 16 0) (genesisState fun _ => 0)
        (Reachable.genesis fun _ => 0)))
    0 ⟨7, 40⟩ rfl

end KittiesPallet
